import Mathlib

/-!
Verification of the FloatChat core decision procedures: the axis/chart-type
selector of `frontend_service.py` and the nearest-port router of
`map_feature.py`.

The Python code is shallowly embedded.  Dynamically typed cells are modelled
by a `Cell` record carrying the outcomes of the two external pandas parsers
(`pd.to_numeric` element coercion and `pd.to_datetime` element parsing) as
data, since those parsers are third-party library behaviour the repository
only invokes.  Python floats are modelled by `PyFloat` (a rational or one of
nan, inf, ninf), `round(x, 2)` by exact round-half-even at two decimals, and
`list.sort(key=...)` by the stable insertion sort `List.insertionSort` with
the comparison `not (key b < key a)`, which agrees with Python's stable sort
whenever the keys are totally ordered.  The geodesic distance function
(`geopy.distance.distance(...).km`) is an external library call and is taken
as a parameter `dist` of the routing definitions; the `ValueError` the
library raises on a non-finite coordinate is modelled by `geopyDistance` and
the call-outcome type `PyResult`.
-/

namespace FloatChat

/-! ### String helpers: Python's `needle in s` substring test -/

/-- Chars of `p` are a leading segment of the second list. -/
def charsLead : List Char → List Char → Bool
  | [], _ => true
  | _ :: _, [] => false
  | a :: as, b :: bs => a == b && charsLead as bs

/-- Chars of `p` occur contiguously somewhere in the second list. -/
def charsWithin (p : List Char) : List Char → Bool
  | [] => charsLead p []
  | b :: bs => charsLead p (b :: bs) || charsWithin p bs

/-- Python's substring containment `sub in hay`. -/
def strContains (hay sub : String) : Bool := charsWithin sub.data hay.data

/-- ASCII lowering of one character, as `Char.toLower` does (the strings
compared by this code — catalog names and keyword matches — are ASCII). -/
def lowerChar (c : Char) : Char :=
  if 65 ≤ c.toNat ∧ c.toNat ≤ 90 then Char.ofNat (c.toNat + 32) else c

/-- Python's `s.lower()` on the ASCII strings this code compares. -/
def lowerStr (s : String) : String := String.mk (s.data.map lowerChar)

/-! ### Data model of a tabular result (`pandas.DataFrame`)

A cell records exactly what the pipeline observes about a value: whether it
is null, how `pd.to_numeric` interprets it (`asNum`), and whether
`pd.to_datetime` parses it (`dateOk`). -/

/-- Column dtype: `object` (strings/mixed) or numeric. -/
inductive Dtype where
  | object
  | number
deriving DecidableEq, Repr

instance : BEq Dtype := ⟨fun a b => decide (a = b)⟩

/-- One cell of a column, with the outcomes of the pandas parsers baked in. -/
structure Cell where
  isNull : Bool
  asNum : Option ℚ
  dateOk : Bool
deriving DecidableEq, Repr

/-- A named column: dtype plus the list of cells. -/
structure Column where
  name : String
  dtype : Dtype
  cells : List Cell
deriving DecidableEq, Repr

/-- A tabular result: the row count (`len(df)`) and the ordered columns. -/
structure Table where
  nrows : Nat
  cols : List Column
deriving DecidableEq, Repr

/-- The conversion `pd.to_numeric(col, errors="ignore")` succeeds on an object column iff
every non-null cell has a numeric interpretation. -/
def colNumericOk (c : Column) : Bool := c.cells.all fun v => v.isNull || v.asNum.isSome

/-- One column of `to_numeric_df`: object columns whose values all convert
become numeric; failures leave the column unchanged (`errors="ignore"`). -/
def coerceColumn (c : Column) : Column :=
  match c.dtype with
  | .number => c
  | .object => if colNumericOk c then { c with dtype := Dtype.number } else c

/-- Function `to_numeric_df` of `frontend_service.py` (lines 14-20). -/
def to_numeric_df (t : Table) : Table := { nrows := t.nrows, cols := t.cols.map coerceColumn }

/-- The strict parse `pd.to_datetime(df[c], errors="raise")` succeeds iff
every non-null cell parses as a date (nulls become `NaT` without raising). -/
def colStrictDate (c : Column) : Bool := c.cells.all fun v => v.isNull || v.dateOk

/-- The count `pd.to_datetime(df[c], errors="coerce").notna().sum()`: how many cells
parse as dates (null cells coerce to `NaT` and are not counted). -/
def colDateCount (c : Column) : Nat := c.cells.countP fun v => !v.isNull && v.dateOk

/-- The condition under which `detect_date_column` accepts a column: its name
contains `"date"` (case-insensitively) and either the strict parse succeeds
or the parse count reaches `max(1, len(parsed) // 4)`. -/
def codeDateLike (c : Column) : Bool :=
  strContains (lowerStr c.name) "date" &&
    (colStrictDate c || decide (colDateCount c ≥ max 1 (c.cells.length / 4)))

/-- The column loop of `detect_date_column` (`frontend_service.py` lines 22-34). -/
def detectDateGo : List Column → Option String
  | [] => none
  | c :: rest =>
    if strContains (lowerStr c.name) "date" then
      if colStrictDate c then some c.name
      else if colDateCount c ≥ max 1 (c.cells.length / 4) then some c.name
      else detectDateGo rest
    else detectDateGo rest

/-- Function `detect_date_column` of `frontend_service.py`. -/
def detect_date_column (t : Table) : Option String := detectDateGo t.cols

/-- Column names of a table, in order. -/
def colNames (t : Table) : List String := t.cols.map Column.name

/-- The list `df.select_dtypes(include=["number"]).columns.tolist()` computed on the
coerced frame, as `choose_axes` does. -/
def numericNames (t : Table) : List String :=
  ((to_numeric_df t).cols.filter fun c => c.dtype == Dtype.number).map Column.name

/-- The nested preference loop `for pref in [...]: for c in cols: ...` of
`choose_axes`: first preference keyword that matches some numeric column,
first matching column within it. -/
def findPref (cols numeric_cols : List String) : List String → Option String
  | [] => none
  | p :: ps =>
    match cols.find? (fun c => strContains (lowerStr c) p && numeric_cols.contains c) with
    | some c => some c
    | none => findPref cols numeric_cols ps

/-- The date-column branch of `choose_axes` (lines 50-58), parametrised by the
already-computed `detect_date_column` result.  Returns `none` when control
falls through to the pressure rule. -/
def dateRule (dcol : Option String) (cols numeric_cols : List String) :
    Option (Option String × Option String × String) :=
  match dcol with
  | none => none
  | some date_col =>
    match findPref cols numeric_cols ["temperature", "temp", "salinity", "pressure"] with
    | some c => some (some date_col, some c, "line")
    | none =>
      match numeric_cols with
      | c :: _ => some (some date_col, some c, "line")
      | [] => none

/-- The predicate selecting the pressure column:
`"pressure" == c.lower() or "pressure" in c.lower()` (line 63). -/
def isPressureName (c : String) : Bool :=
  lowerStr c == "pressure" || strContains (lowerStr c) "pressure"

/-- The pressure-profile branch of `choose_axes` (lines 60-73).  Returns
`none` when control falls through to the scatter rule. -/
def pressureRule (cols numeric_cols : List String) :
    Option (Option String × Option String × String) :=
  match cols.find? isPressureName with
  | none => none
  | some pressure_col =>
    match findPref cols numeric_cols ["temperature", "salinity", "temp"] with
    | some c => some (some c, some pressure_col, "line")
    | none =>
      match numeric_cols.filter (fun c => c != pressure_col) with
      | c :: _ => some (some c, some pressure_col, "line")
      | [] => none

/-- The rule cascade of `choose_axes` over the derived data: row count,
column names, numeric column names and the detected date column. -/
def chooseCore (nrows : Nat) (cols numeric_cols : List String) (dcol : Option String) :
    Option String × Option String × String :=
  if nrows == 1 && !numeric_cols.isEmpty then (none, none, "bar")
  else
    match dateRule dcol cols numeric_cols with
    | some r => r
    | none =>
      match pressureRule cols numeric_cols with
      | some r => r
      | none =>
        match numeric_cols with
        | a :: b :: _ => (some a, some b, "scatter")
        | _ => (none, none, "table")

/-- Function `choose_axes` of `frontend_service.py` (lines 36-80): coerce the frame,
then apply the rule cascade to its row count, column names, numeric columns
and detected date column. -/
def choose_axes (t0 : Table) : Option String × Option String × String :=
  chooseCore (to_numeric_df t0).nrows (colNames (to_numeric_df t0)) (numericNames t0)
    (detect_date_column (to_numeric_df t0))

/-! ### Python floats and rounding -/

/-- A Python float: a finite rational, or one of the special values
`float("nan")`, `float("inf")`, `float("-inf")`. -/
inductive PyFloat where
  | fin (q : ℚ)
  | nan
  | inf
  | ninf
deriving DecidableEq, Repr

/-- Python's `<` on floats: the usual order on finite values and infinities;
every comparison with `nan` is false. -/
def PyFloat.lt : PyFloat → PyFloat → Bool
  | .fin a, .fin b => decide (a < b)
  | .ninf, .fin _ => true
  | .ninf, .inf => true
  | .fin _, .inf => true
  | _, _ => false

/-- Whether the float is a finite value. -/
def PyFloat.isFin : PyFloat → Bool
  | .fin _ => true
  | _ => false

/-- The rational value of a finite float (junk `0` on the special values). -/
def PyFloat.q : PyFloat → ℚ
  | .fin a => a
  | _ => 0

/-- Python float addition restricted to the cases that occur here:
`nan` propagates, opposite infinities give `nan`. -/
def PyFloat.add : PyFloat → PyFloat → PyFloat
  | .fin a, .fin b => .fin (a + b)
  | .nan, _ => .nan
  | _, .nan => .nan
  | .inf, .ninf => .nan
  | .ninf, .inf => .nan
  | .inf, _ => .inf
  | _, .inf => .inf
  | .ninf, _ => .ninf
  | _, .ninf => .ninf

/-- Round-half-even to an integer, the tie-breaking Python's `round` uses. -/
def rndHalfEven (x : ℚ) : ℤ :=
  if x - Int.floor x < 1 / 2 then Int.floor x
  else if 1 / 2 < x - Int.floor x then Int.floor x + 1
  else if Int.floor x % 2 = 0 then Int.floor x else Int.floor x + 1

/-- Python's `round(x, 2)` on a rational: round half to even at two decimals. -/
def roundq2 (x : ℚ) : ℚ := (rndHalfEven (x * 100) : ℚ) / 100

/-- Python's `round(x, 2)` on a float: the special values round to themselves. -/
def PyFloat.round2 : PyFloat → PyFloat
  | .fin a => .fin (roundq2 a)
  | x => x

/-- A dynamically typed argument as the routing guard sees it: an int, a
float, or a non-numeric value (string / None). -/
inductive PyVal where
  | int (n : ℤ)
  | float (x : PyFloat)
  | str (s : String)
  | pynone
deriving DecidableEq, Repr

/-- The float value of a numeric argument (ints are exact as floats here). -/
def PyVal.toFloat? : PyVal → Option PyFloat
  | .int n => some (.fin (n : ℚ))
  | .float x => some x
  | _ => none

/-! ### The port catalog and the nearest-port router (`map_feature.py`) -/

/-- A static catalog entry: name and coordinates in degrees. -/
structure Port where
  name : String
  lat : ℚ
  lon : ℚ
deriving DecidableEq, Repr

/-- The list `GLOBAL_OCEAN_PORTS` of `map_feature.py` (lines 10-31). -/
def GLOBAL_OCEAN_PORTS : List Port := [
  { name := "Durban, South Africa", lat := -29.8587, lon := 31.0218 },
  { name := "Mombasa, Kenya", lat := -4.0500, lon := 39.6667 },
  { name := "Chennai, India", lat := 13.0827, lon := 80.2707 },
  { name := "Colombo, Sri Lanka", lat := 6.9271, lon := 79.8612 },
  { name := "Chittagong, Bangladesh", lat := 22.3475, lon := 91.8123 },
  { name := "Port Louis, Mauritius", lat := -20.1610, lon := 57.5029 },
  { name := "Singapore", lat := 1.290270, lon := 103.851959 },
  { name := "Shanghai, China", lat := 31.2304, lon := 121.4737 },
  { name := "Yokohama, Japan", lat := 35.4437, lon := 139.6380 },
  { name := "Los Angeles, USA", lat := 33.7297, lon := -118.2625 },
  { name := "Sydney, Australia", lat := -33.8688, lon := 151.2093 },
  { name := "Rotterdam, Netherlands", lat := 51.9244, lon := 4.4777 },
  { name := "New York, USA", lat := 40.7306, lon := -73.9865 },
  { name := "Santos, Brazil", lat := -23.9910, lon := -46.3813 },
  { name := "Lagos, Nigeria", lat := 6.4531, lon := 3.3958 }]

/-- The geodesic distance oracle `geopy.distance.distance((la, lo), (plat, plon)).km`:
an external library function, taken as a parameter.  The first pair is the
float's coordinates (possibly nan), the second a catalog coordinate. -/
abbrev DistFn := PyFloat → PyFloat → ℚ → ℚ → PyFloat

/-- One entry of the `distances` list of `find_nearest_ports` (lines 58-63):
the port data plus its rounded distance from the float. -/
structure Candidate where
  name : String
  lat : ℚ
  lon : ℚ
  distance_from_float : PyFloat
deriving DecidableEq, Repr

/-- The dict appended for one port: distance computed by the oracle and
rounded to two decimals. -/
def mkCandidate (dist : DistFn) (la lo : PyFloat) (p : Port) : Candidate :=
  { name := p.name, lat := p.lat, lon := p.lon,
    distance_from_float := (dist la lo p.lat p.lon).round2 }

/-- The ordering `distances.sort(key=lambda x: x['distance_from_float'])`
sorts by: `a` precedes `b` unless `b`'s key is strictly smaller. -/
def candBefore (a b : Candidate) : Prop :=
  PyFloat.lt b.distance_from_float a.distance_from_float = false

instance : DecidableRel candBefore := fun _ _ => instDecidableEqBool _ _

/-- Function `find_nearest_ports` of `map_feature.py` (lines 44-67) on its
normal-return executions: reject non-numeric coordinates, compute a rounded
distance per catalog port, stable-sort by it and take the first `num_ports`.
On a numeric but non-finite coordinate the real function does not return —
the first library call raises — so this normal path is only reached with
finite coordinates; the full behavior, exception included, is
`find_nearest_ports_run` below, which agrees with this function whenever
every library call returns. -/
def find_nearest_ports (dist : DistFn) (float_lat float_lon : PyVal) (num_ports : Nat) :
    List Candidate :=
  match float_lat.toFloat?, float_lon.toFloat? with
  | some la, some lo =>
    (List.insertionSort candBefore (GLOBAL_OCEAN_PORTS.map (mkCandidate dist la lo))).take
      num_ports
  | _, _ => []

/-- The destination lookup of `render_map_with_route` (line 101):
`next((p for p in GLOBAL_OCEAN_PORTS if dest_name.lower() in p["name"].lower()), None)`. -/
def find_dest_port (dest_name : String) : Option Port :=
  GLOBAL_OCEAN_PORTS.find? fun p => strContains (lowerStr p.name) (lowerStr dest_name)

/-- One `route_details` entry of `render_map_with_route` (lines 138-183). -/
structure RouteDetail where
  name : String
  total_distance : PyFloat
  distance_to_port : PyFloat
  is_primary : Bool
deriving DecidableEq, Repr

/-- The body of the loop over `enumerate(nearest_ports)`: the port-to-destination
distance is computed independently; the total is the candidate's (already
rounded) distance from the float plus that distance, rounded to two decimals. -/
def mkRouteDetail (dist : DistFn) (dest : Port) (port : Candidate) (primary : Bool) :
    RouteDetail :=
  let distance_port_to_dest := dist (.fin port.lat) (.fin port.lon) dest.lat dest.lon
  { name := port.name,
    total_distance := (port.distance_from_float.add distance_port_to_dest).round2,
    distance_to_port := port.distance_from_float,
    is_primary := primary }

/-- The loop `for i, port in enumerate(nearest_ports)` with its running index:
`is_primary = (i == 0)`. -/
def buildRouteDetailsFrom (dist : DistFn) (dest : Port) : Nat → List Candidate → List RouteDetail
  | _, [] => []
  | i, port :: rest =>
    mkRouteDetail dist dest port (i == 0) :: buildRouteDetailsFrom dist dest (i + 1) rest

/-- The assembled `route_details` list of `render_map_with_route`. -/
def route_details (dist : DistFn) (dest : Port) (nearest : List Candidate) : List RouteDetail :=
  buildRouteDetailsFrom dist dest 0 nearest

/-- Position of a port name in the catalog (catalog order of a candidate). -/
def catIdx (s : String) : Nat := (GLOBAL_OCEAN_PORTS.map Port.name).findIdx fun n => n == s

/-! ### Concrete cells and tables used as test inputs -/

/-- A null cell (`NaN` entry). -/
def nullCell : Cell := { isNull := true, asNum := none, dateOk := false }

/-- A non-null cell that parses as a date but not as a number
(a date string such as `"2002-03-01"`). -/
def dateCell : Cell := { isNull := false, asNum := none, dateOk := true }

/-- A non-null cell that parses neither as a date nor as a number. -/
def rawCell : Cell := { isNull := false, asNum := none, dateOk := false }

/-- A numeric cell holding the value `q`. -/
def numCell (q : ℚ) : Cell := { isNull := false, asNum := some q, dateOk := false }

/-- A `date`-named object column with eight rows: four nulls, one date
string, three unparseable strings.  One of four non-null entries parses. -/
def dateCol8 : Column :=
  { name := "date", dtype := .object,
    cells := [nullCell, nullCell, nullCell, nullCell, dateCell, rawCell, rawCell, rawCell] }

/-- The one-column table around `dateCol8`. -/
def tbl8 : Table := { nrows := 8, cols := [dateCol8] }

/-- The date-likeness criterion as the specification words it: the name
contains `"date"` (case-insensitively) and either a strict parse succeeds or
the values parse as dates for at least 25 percent of the NON-NULL entries.
Stated from the spec for comparison with `codeDateLike`. -/
def specDateLike (c : Column) : Bool :=
  strContains (lowerStr c.name) "date" &&
    (colStrictDate c || decide (4 * colDateCount c ≥ c.cells.countP fun v => !v.isNull))

/-! ### The date-detection loop as a first-match search -/

/-- The column loop of `detect_date_column` returns the first column
satisfying `codeDateLike`. -/
theorem detectDateGo_eq_find (l : List Column) :
    detectDateGo l = (l.find? codeDateLike).map Column.name := by
  induction l with
  | nil => rfl
  | cons c rest ih =>
    simp only [detectDateGo, List.find?_cons, codeDateLike]
    by_cases h1 : strContains (lowerStr c.name) "date"
    · by_cases h2 : colStrictDate c
      · simp [h1, h2]
      · by_cases h3 : colDateCount c ≥ max 1 (c.cells.length / 4)
        · simp [h1, h2, h3]
        · simp [h1, h2, h3, ih]
    · simp [h1, ih]

/-- C3 (corrected): a column is selected as date-like iff it is the first
column whose name contains `"date"` (case-insensitively) and whose values
either all parse strictly or parse for at least `max(1, total_rows // 4)`
entries — the threshold is a quarter of ALL entries (nulls included), not of
the non-null entries; if no column qualifies, `detect_date_column` returns
`none` and `choose_axes` proceeds to the pressure rule. -/
theorem detect_date_column_first_match (t : Table) :
    detect_date_column t = (t.cols.find? codeDateLike).map Column.name :=
  detectDateGo_eq_find t.cols

/-- C3 (counterexample): `dateCol8` parses on one of its four non-null
entries, meeting the claimed 25-percent-of-non-null threshold, yet
`detect_date_column` rejects it because one is below
`max(1, 8 // 4) = 2`. -/
theorem detect_date_threshold_counterexample :
    specDateLike dateCol8 = true ∧ detect_date_column tbl8 = none := by decide

/-! ### C8: single aggregated row gives a bar chart -/

/-- C8 (confirmed): for every table with exactly one row and at least one
numeric column, `choose_axes` returns `(None, None, "bar")`. -/
theorem choose_axes_single_row_bar (t : Table) (h1 : t.nrows = 1)
    (h2 : numericNames t ≠ []) : choose_axes t = (none, none, "bar") := by
  have hn : (to_numeric_df t).nrows = t.nrows := rfl
  have he : (numericNames t).isEmpty = false := by
    cases hne : numericNames t with
    | nil => exact absurd hne h2
    | cons a l => rfl
  unfold choose_axes chooseCore
  rw [hn, h1, he]
  rfl

/-- A one-row table with one numeric column named `count`. -/
def tblBar : Table :=
  { nrows := 1, cols := [{ name := "count", dtype := .number, cells := [numCell 1] }] }

/-- C8 witness: `choose_axes_single_row_bar` applied to `tblBar`. -/
theorem choose_axes_single_row_bar_witness :
    (tblBar.nrows = 1 ∧ numericNames tblBar ≠ []) ∧ choose_axes tblBar = (none, none, "bar") :=
  ⟨⟨rfl, by decide⟩, choose_axes_single_row_bar tblBar rfl (by decide)⟩

/-! ### Names survive numeric coercion; membership lemmas for the rules -/

/-- Coercion only changes the dtype, never the name. -/
theorem coerceColumn_name (c : Column) : (coerceColumn c).name = c.name := by
  obtain ⟨nm, dt, cs⟩ := c
  cases dt
  · by_cases h : colNumericOk ⟨nm, .object, cs⟩ <;> simp [coerceColumn, h]
  · rfl

/-- The coerced frame has the same column names. -/
theorem colNames_to_numeric (t : Table) : colNames (to_numeric_df t) = colNames t := by
  simp only [colNames, to_numeric_df, List.map_map]
  exact List.map_congr_left fun c _ => coerceColumn_name c

/-- A column returned by the preference loop is one of the given columns. -/
theorem findPref_mem {cols nc : List String} {c : String} :
    ∀ {prefs : List String}, findPref cols nc prefs = some c → c ∈ cols := by
  intro prefs
  induction prefs with
  | nil => intro h; cases h
  | cons p ps ih =>
    intro h
    rw [findPref] at h
    cases hf : cols.find? (fun c => strContains (lowerStr c) p && nc.contains c) with
    | none => rw [hf] at h; exact ih h
    | some d =>
      rw [hf] at h
      obtain rfl := Option.some.inj h
      exact List.mem_of_find?_eq_some hf

/-- Every numeric column name is a column name of the coerced frame. -/
theorem numericNames_subset (t : Table) :
    ∀ n ∈ numericNames t, n ∈ colNames (to_numeric_df t) := by
  intro n hn
  unfold numericNames at hn
  obtain ⟨c, hc, rfl⟩ := List.mem_map.mp hn
  exact List.mem_map_of_mem _ (List.mem_of_mem_filter hc)

/-- A detected date column is one of the table's columns. -/
theorem detect_date_column_mem {t : Table} {n : String} (h : detect_date_column t = some n) :
    n ∈ colNames t := by
  rw [detect_date_column, detectDateGo_eq_find] at h
  cases hf : t.cols.find? codeDateLike with
  | none => rw [hf] at h; cases h
  | some c =>
    rw [hf] at h
    obtain rfl := Option.some.inj h
    exact List.mem_map_of_mem _ (List.mem_of_find?_eq_some hf)

/-- When the date branch fires it emits a line chart whose x is the detected
date column and whose y is a column or a numeric column. -/
theorem dateRule_spec {dcol : Option String} {cols nc : List String}
    {r : Option String × Option String × String} (h : dateRule dcol cols nc = some r) :
    ∃ x y, r = (some x, some y, "line") ∧ dcol = some x ∧ (y ∈ cols ∨ y ∈ nc) := by
  cases dcol with
  | none => cases h
  | some d =>
    cases hf : findPref cols nc ["temperature", "temp", "salinity", "pressure"] with
    | some c =>
      simp only [dateRule, hf] at h
      obtain rfl := Option.some.inj h
      exact ⟨d, c, rfl, rfl, Or.inl (findPref_mem hf)⟩
    | none =>
      simp only [dateRule, hf] at h
      cases hnc : nc with
      | nil =>
        rw [hnc] at h
        exact Option.noConfusion h
      | cons a l =>
        rw [hnc] at h
        obtain rfl := Option.some.inj h
        exact ⟨d, a, rfl, rfl, Or.inr (hnc ▸ List.mem_cons_self a l)⟩

/-- When the pressure branch fires it emits a line chart whose y is one of the
columns and whose x is a column or a numeric column. -/
theorem pressureRule_spec {cols nc : List String}
    {r : Option String × Option String × String} (h : pressureRule cols nc = some r) :
    ∃ x y, r = (some x, some y, "line") ∧ (x ∈ cols ∨ x ∈ nc) ∧ y ∈ cols := by
  cases hpc : cols.find? isPressureName with
  | none =>
    simp only [pressureRule, hpc] at h
    exact Option.noConfusion h
  | some pc =>
    have hpcm : pc ∈ cols := List.mem_of_find?_eq_some hpc
    cases hf : findPref cols nc ["temperature", "salinity", "temp"] with
    | some c =>
      simp only [pressureRule, hpc, hf] at h
      obtain rfl := Option.some.inj h
      exact ⟨c, pc, rfl, Or.inl (findPref_mem hf), hpcm⟩
    | none =>
      simp only [pressureRule, hpc, hf] at h
      cases hflt : nc.filter (fun c => c != pc) with
      | nil =>
        rw [hflt] at h
        exact Option.noConfusion h
      | cons a l =>
        rw [hflt] at h
        obtain rfl := Option.some.inj h
        refine ⟨a, pc, rfl, Or.inr ?_, hpcm⟩
        exact List.mem_of_mem_filter (hflt ▸ List.mem_cons_self a l)

/-! ### C10: unset axes exactly for bar and table kinds -/

/-- C10 (confirmed): `choose_axes` either returns `(None, None, "bar")`, or
`(None, None, "table")`, or a line/scatter result whose x and y are both
column names of the table; hence x and y are unset iff the kind is bar or
table. -/
theorem choose_axes_axes_iff_kind (t : Table) :
    choose_axes t = (none, none, "bar") ∨ choose_axes t = (none, none, "table") ∨
    ∃ x y, x ∈ colNames t ∧ y ∈ colNames t ∧
      (choose_axes t = (some x, some y, "line") ∨
       choose_axes t = (some x, some y, "scatter")) := by
  have hsub : ∀ n ∈ numericNames t, n ∈ colNames t := fun n hn =>
    colNames_to_numeric t ▸ numericNames_subset t n hn
  unfold choose_axes chooseCore
  by_cases hbar :
      ((to_numeric_df t).nrows == 1 && !(numericNames t).isEmpty) = true
  · rw [if_pos hbar]
    exact Or.inl rfl
  · rw [if_neg hbar]
    cases hd : dateRule (detect_date_column (to_numeric_df t)) (colNames (to_numeric_df t))
        (numericNames t) with
    | some r =>
      obtain ⟨x, y, rfl, hx, hy⟩ := dateRule_spec hd
      refine Or.inr (Or.inr ⟨x, y, ?_, ?_, Or.inl rfl⟩)
      · exact colNames_to_numeric t ▸ detect_date_column_mem hx
      · rcases hy with hy | hy
        · exact colNames_to_numeric t ▸ hy
        · exact hsub y hy
    | none =>
      cases hp : pressureRule (colNames (to_numeric_df t)) (numericNames t) with
      | some r =>
        obtain ⟨x, y, rfl, hx, hy⟩ := pressureRule_spec hp
        refine Or.inr (Or.inr ⟨x, y, ?_, colNames_to_numeric t ▸ hy, Or.inl rfl⟩)
        rcases hx with hx | hx
        · exact colNames_to_numeric t ▸ hx
        · exact hsub x hx
      | none =>
        cases hnc : numericNames t with
        | nil => exact Or.inr (Or.inl rfl)
        | cons a l =>
          cases hl : l with
          | nil => exact Or.inr (Or.inl rfl)
          | cons b l2 =>
            refine Or.inr (Or.inr ⟨a, b, ?_, ?_, Or.inr rfl⟩)
            · exact hsub a (hnc ▸ List.mem_cons_self a l)
            · exact hsub b (by rw [hnc, hl]; exact List.mem_cons_of_mem a (List.mem_cons_self b l2))

/-! ### C9: pressure and salinity give an inverted profile line chart -/

/-- C9 (corrected, theorem for the amended claim): a table with a `pressure`
column and a numeric `salinity` column, no date-matching or temp-matching
column names, whose first pressure-matching column is `pressure` and first
numeric salinity-matching column is `salinity`, and which does NOT have
exactly one row, yields `(x="salinity", y="pressure", "line")`. -/
theorem choose_axes_pressure_salinity_line (t : Table)
    (h1 : t.nrows ≠ 1)
    (h2 : ∀ n ∈ colNames t, strContains (lowerStr n) "date" = false)
    (h3 : ∀ n ∈ colNames t, strContains (lowerStr n) "temperature" = false)
    (h5 : (colNames t).find? isPressureName = some "pressure")
    (h6 : (colNames t).find?
        (fun c => strContains (lowerStr c) "salinity" && (numericNames t).contains c) =
        some "salinity") :
    choose_axes t = (some "salinity", some "pressure", "line") := by
  have hcn := colNames_to_numeric t
  have hdet : detect_date_column (to_numeric_df t) = none := by
    rw [detect_date_column, detectDateGo_eq_find]
    have : (to_numeric_df t).cols.find? codeDateLike = none := by
      apply List.find?_eq_none.mpr
      intro c hc hcdl
      have hname : c.name ∈ colNames t := hcn ▸ List.mem_map_of_mem _ hc
      rw [codeDateLike, Bool.and_eq_true] at hcdl
      rw [h2 c.name hname] at hcdl
      exact Bool.noConfusion hcdl.1
    rw [this]
    rfl
  have htnone : (colNames t).find?
      (fun c => strContains (lowerStr c) "temperature" && (numericNames t).contains c) =
      none := by
    apply List.find?_eq_none.mpr
    intro n hn hp
    rw [Bool.and_eq_true] at hp
    rw [h3 n hn] at hp
    exact Bool.noConfusion hp.1
  have hbar : ((to_numeric_df t).nrows == 1) = false := by
    have hr : (to_numeric_df t).nrows = t.nrows := rfl
    rw [hr]
    exact beq_eq_false_iff_ne.mpr h1
  unfold choose_axes chooseCore
  rw [hbar, hdet, hcn]
  simp only [Bool.false_and, Bool.false_eq_true, if_false, dateRule]
  simp only [pressureRule, h5, findPref, htnone, h6]

/-- A two-row table with numeric `pressure` and `salinity` columns. -/
def tblPS2 : Table :=
  { nrows := 2,
    cols := [{ name := "pressure", dtype := .number, cells := [numCell 10, numCell 20] },
             { name := "salinity", dtype := .number, cells := [numCell 35, numCell 36] }] }

/-- C9 witness: `choose_axes_pressure_salinity_line` applied to `tblPS2`. -/
theorem choose_axes_pressure_salinity_line_witness :
    (tblPS2.nrows ≠ 1 ∧
     (∀ n ∈ colNames tblPS2, strContains (lowerStr n) "date" = false) ∧
     (∀ n ∈ colNames tblPS2, strContains (lowerStr n) "temperature" = false) ∧
     (colNames tblPS2).find? isPressureName = some "pressure" ∧
     (colNames tblPS2).find?
        (fun c => strContains (lowerStr c) "salinity" && (numericNames tblPS2).contains c) =
        some "salinity") ∧
    choose_axes tblPS2 = (some "salinity", some "pressure", "line") :=
  ⟨⟨by decide, by decide, by decide, by decide, by decide⟩,
    choose_axes_pressure_salinity_line tblPS2 (by decide) (by decide) (by decide) (by decide)
      (by decide)⟩

/-- A one-row table with numeric `pressure` and `salinity` columns. -/
def tblPS1 : Table :=
  { nrows := 1,
    cols := [{ name := "pressure", dtype := .number, cells := [numCell 10] },
             { name := "salinity", dtype := .number, cells := [numCell 35] }] }

/-- C9 (counterexample): `tblPS1` has a `pressure` column and a `salinity`
column and no date column, yet `choose_axes` returns the bar kind, not
`(salinity, pressure, line)`, because the single-row rule fires first. -/
theorem choose_axes_pressure_salinity_counterexample :
    colNames tblPS1 = ["pressure", "salinity"] ∧
    detect_date_column (to_numeric_df tblPS1) = none ∧
    choose_axes tblPS1 = (none, none, "bar") ∧
    choose_axes tblPS1 ≠ (some "salinity", some "pressure", "line") := by decide

/-! ### C4: what `choose_axes` can observe of a table

`choose_axes` is a pure function, but of more than names, dtypes and row
count: the date rule reads the parse profile of the cells.  `tableAbs` is the
exact observation: row count, and per column its name, dtype and the cells'
(null, numeric-parse, date-parse) flags. -/

/-- The observable profile of one cell. -/
def cellAbs (v : Cell) : Bool × Bool × Bool := (v.isNull, v.asNum.isSome, v.dateOk)

/-- The observable profile of one column. -/
def colAbs (c : Column) : String × Dtype × List (Bool × Bool × Bool) :=
  (c.name, c.dtype, c.cells.map cellAbs)

/-- The observable profile of a table. -/
def tableAbs (t : Table) : Nat × List (String × Dtype × List (Bool × Bool × Bool)) :=
  (t.nrows, t.cols.map colAbs)

/-- Test `colNumericOk` on the profile. -/
def absNumericOk (a : String × Dtype × List (Bool × Bool × Bool)) : Bool :=
  a.2.2.all fun v => v.1 || v.2.1

/-- Coercion `coerceColumn` on the profile. -/
def absCoerce (a : String × Dtype × List (Bool × Bool × Bool)) :
    String × Dtype × List (Bool × Bool × Bool) :=
  match a.2.1 with
  | .number => a
  | .object => if absNumericOk a then (a.1, Dtype.number, a.2.2) else a

/-- Test `codeDateLike` on the profile. -/
def absDateLike (a : String × Dtype × List (Bool × Bool × Bool)) : Bool :=
  strContains (lowerStr a.1) "date" &&
    ((a.2.2.all fun v => v.1 || v.2.2) ||
      decide ((a.2.2.countP fun v => !v.1 && v.2.2) ≥ max 1 (a.2.2.length / 4)))

/-- Running `all` over profiled cells is `all` of the composed test. -/
theorem cells_all_abs (p : Bool × Bool × Bool → Bool) (l : List Cell) :
    (l.map cellAbs).all p = l.all fun v => p (cellAbs v) := by
  induction l with
  | nil => rfl
  | cons v vs ih => simp [ih]

/-- Running `countP` over profiled cells is `countP` of the composed test. -/
theorem cells_countP_abs (p : Bool × Bool × Bool → Bool) (l : List Cell) :
    (l.map cellAbs).countP p = l.countP fun v => p (cellAbs v) := by
  induction l with
  | nil => rfl
  | cons v vs ih => simp [List.countP_cons, ih]

/-- The numeric-conversion test factors through the profile. -/
theorem absNumericOk_colAbs (c : Column) : absNumericOk (colAbs c) = colNumericOk c := by
  show (c.cells.map cellAbs).all (fun v => v.1 || v.2.1) = _
  rw [cells_all_abs]
  rfl

/-- Coercion commutes with profiling. -/
theorem colAbs_coerce (c : Column) : colAbs (coerceColumn c) = absCoerce (colAbs c) := by
  obtain ⟨nm, dt, cs⟩ := c
  have hok := absNumericOk_colAbs ⟨nm, dt, cs⟩
  simp only [colAbs] at hok
  cases dt
  · cases h : colNumericOk ⟨nm, Dtype.object, cs⟩
    · rw [h] at hok
      simp [coerceColumn, absCoerce, h, hok, colAbs]
    · rw [h] at hok
      simp [coerceColumn, absCoerce, h, hok, colAbs]
  · simp [coerceColumn, absCoerce, colAbs]

/-- The date-likeness test factors through the profile. -/
theorem absDateLike_colAbs (c : Column) : absDateLike (colAbs c) = codeDateLike c := by
  show (strContains (lowerStr c.name) "date" &&
      (((c.cells.map cellAbs).all fun v => v.1 || v.2.2) ||
        decide ((c.cells.map cellAbs).countP (fun v => !v.1 && v.2.2) ≥
          max 1 ((c.cells.map cellAbs).length / 4)))) = _
  rw [cells_all_abs, cells_countP_abs, List.length_map]
  rfl

/-- Column names read off the profiles. -/
theorem colNames_abs (s : Table) : colNames s = (s.cols.map colAbs).map fun a => a.1 := by
  rw [colNames, List.map_map]
  rfl

/-- Profiles of the coerced frame, as a function of the original profiles. -/
theorem coerce_abs (s : Table) :
    (to_numeric_df s).cols.map colAbs = (s.cols.map colAbs).map absCoerce := by
  simp only [to_numeric_df, List.map_map]
  exact List.map_congr_left fun c _ => colAbs_coerce c

/-- Numeric column names, as a function of the original profiles. -/
theorem numericNames_abs (s : Table) :
    numericNames s =
      (((s.cols.map colAbs).map absCoerce).filter fun a => a.2.1 == Dtype.number).map
        fun a => a.1 := by
  rw [numericNames, ← coerce_abs s, List.filter_map, List.map_map]
  rfl

/-- The detected date column, as a function of the original profiles. -/
theorem detect_abs (s : Table) :
    detect_date_column (to_numeric_df s) =
      (((s.cols.map colAbs).map absCoerce).find? absDateLike).map fun a => a.1 := by
  rw [detect_date_column, detectDateGo_eq_find, ← coerce_abs s, List.find?_map,
    Option.map_map]
  have hfun : (absDateLike ∘ colAbs) = codeDateLike := funext absDateLike_colAbs
  rw [hfun]
  rfl

/-- C4 (corrected, theorem for the amended claim): `choose_axes` is a pure
function of the table's observable profile — the row count plus, per column,
its name, its dtype and its cells' null/numeric-parse/date-parse flags.  Two
tables with equal profiles get equal axes, whatever the actual values are. -/
theorem choose_axes_determined_by_profile {t1 t2 : Table} (h : tableAbs t1 = tableAbs t2) :
    choose_axes t1 = choose_axes t2 := by
  have hn : t1.nrows = t2.nrows := congrArg Prod.fst h
  have hc : t1.cols.map colAbs = t2.cols.map colAbs := congrArg Prod.snd h
  have hrows : (to_numeric_df t1).nrows = (to_numeric_df t2).nrows := hn
  have hnames : colNames (to_numeric_df t1) = colNames (to_numeric_df t2) := by
    rw [colNames_to_numeric, colNames_to_numeric, colNames_abs, colNames_abs, hc]
  have hnum : numericNames t1 = numericNames t2 := by
    rw [numericNames_abs, numericNames_abs, hc]
  have hdet : detect_date_column (to_numeric_df t1) = detect_date_column (to_numeric_df t2) := by
    rw [detect_abs, detect_abs, hc]
  unfold choose_axes
  rw [hrows, hnames, hnum, hdet]

/-- Like `tblPS2`, with different numeric values but the same profile. -/
def tblPS2V : Table :=
  { nrows := 2,
    cols := [{ name := "pressure", dtype := .number, cells := [numCell 100, numCell 200] },
             { name := "salinity", dtype := .number, cells := [numCell 135, numCell 136] }] }

/-- C4 witness: `choose_axes_determined_by_profile` applied to `tblPS2` and
`tblPS2V`. -/
theorem choose_axes_determined_by_profile_witness :
    tableAbs tblPS2 = tableAbs tblPS2V ∧ choose_axes tblPS2 = choose_axes tblPS2V :=
  ⟨rfl, choose_axes_determined_by_profile rfl⟩

/-- A two-row table whose `date` column holds parseable date strings, next to
a numeric `temperature` column. -/
def tblDateGood : Table :=
  { nrows := 2,
    cols := [{ name := "date", dtype := .object, cells := [dateCell, dateCell] },
             { name := "temperature", dtype := .number, cells := [numCell 3, numCell 4] }] }

/-- The same shape, but the `date` column holds unparseable strings. -/
def tblDateBad : Table :=
  { nrows := 2,
    cols := [{ name := "date", dtype := .object, cells := [rawCell, rawCell] },
             { name := "temperature", dtype := .number, cells := [numCell 3, numCell 4] }] }

/-- C4 (counterexample): `tblDateGood` and `tblDateBad` agree on row count,
column names and column dtypes (before and after numeric coercion), yet
`choose_axes` answers a date line chart on one and a raw table on the other —
the result is not a function of names, types and row count alone. -/
theorem choose_axes_names_types_rows_counterexample :
    (tblDateGood.nrows = tblDateBad.nrows ∧
     colNames tblDateGood = colNames tblDateBad ∧
     tblDateGood.cols.map Column.dtype = tblDateBad.cols.map Column.dtype ∧
     (to_numeric_df tblDateGood).cols.map Column.dtype =
       (to_numeric_df tblDateBad).cols.map Column.dtype) ∧
    choose_axes tblDateGood = (some "date", some "temperature", "line") ∧
    choose_axes tblDateBad = (none, none, "table") := by decide

/-! ### Order lemmas for Python float comparison -/

/-- No Python float is less than itself. -/
theorem PyFloat.lt_irrefl (a : PyFloat) : PyFloat.lt a a = false := by
  cases a <;> simp [PyFloat.lt]

/-- A strict comparison witnesses disequality. -/
theorem PyFloat.ne_of_lt {a b : PyFloat} (h : PyFloat.lt a b = true) : a ≠ b := by
  intro he
  subst he
  rw [PyFloat.lt_irrefl] at h
  exact Bool.noConfusion h

/-- Finiteness as an existential. -/
theorem PyFloat.isFin_iff {x : PyFloat} : x.isFin = true ↔ ∃ q, x = .fin q := by
  cases x <;> simp [PyFloat.isFin]

/-- On finite floats, `lt` is the rational order. -/
theorem PyFloat.lt_fin {a b : ℚ} : PyFloat.lt (.fin a) (.fin b) = true ↔ a < b := by
  simp [PyFloat.lt]

/-! ### The stable sort of `find_nearest_ports` is sorted and stable -/

/-- The candidates' reported distances, in nondecreasing order. -/
def qle (a b : Candidate) : Prop :=
  a.distance_from_float.q ≤ b.distance_from_float.q

/-- Ties on the reported distance keep catalog order. -/
def tieStable (a b : Candidate) : Prop :=
  a.distance_from_float = b.distance_from_float → catIdx a.name < catIdx b.name

/-- Catalog precedence between candidates. -/
def catLt (a b : Candidate) : Prop := catIdx a.name < catIdx b.name

/-- Inserting a finitely-keyed candidate keeps the list sorted by reported
distance. -/
theorem orderedInsert_pairwise_qle (x : Candidate) (l : List Candidate)
    (hx : x.distance_from_float.isFin = true)
    (hl : ∀ c ∈ l, c.distance_from_float.isFin = true)
    (h : l.Pairwise qle) : (List.orderedInsert candBefore x l).Pairwise qle := by
  obtain ⟨qx, hqx⟩ := PyFloat.isFin_iff.mp hx
  induction l with
  | nil => simp
  | cons b t ih =>
    have hbfin := hl b (List.mem_cons_self b t)
    obtain ⟨qb, hqb⟩ := PyFloat.isFin_iff.mp hbfin
    rw [List.orderedInsert]
    by_cases hc : candBefore x b
    · rw [if_pos hc]
      have hxb : qle x b := by
        rw [candBefore, hqx, hqb] at hc
        rw [qle, hqx, hqb]
        show qx ≤ qb
        by_contra hgt
        rw [(PyFloat.lt_fin).mpr (lt_of_not_le hgt)] at hc
        exact Bool.noConfusion hc
      constructor
      · intro z hz
        rcases List.mem_cons.mp hz with rfl | hz
        · exact hxb
        · exact le_trans hxb ((List.pairwise_cons.mp h).1 z hz)
      · exact h
    · rw [if_neg hc]
      have hbx : qle b x := by
        cases hbb : PyFloat.lt b.distance_from_float x.distance_from_float with
        | false => exact absurd hbb hc
        | true =>
          rw [hqx, hqb] at hbb
          rw [qle, hqx, hqb]
          exact le_of_lt ((PyFloat.lt_fin).mp hbb)
      constructor
      · intro z hz
        rcases (List.mem_orderedInsert candBefore).mp hz with rfl | hz
        · exact hbx
        · exact (List.pairwise_cons.mp h).1 z hz
      · exact ih (fun c hc' => hl c (List.mem_cons_of_mem b hc')) h.of_cons

/-- The insertion sort of finitely-keyed candidates is sorted by reported
distance. -/
theorem insertionSort_pairwise_qle (l : List Candidate)
    (hl : ∀ c ∈ l, c.distance_from_float.isFin = true) :
    (List.insertionSort candBefore l).Pairwise qle := by
  induction l with
  | nil => simp
  | cons a t ih =>
    rw [List.insertionSort]
    apply orderedInsert_pairwise_qle
    · exact hl a (List.mem_cons_self a t)
    · intro c hc
      exact hl c (List.mem_cons_of_mem a ((List.mem_insertionSort (r := candBefore)).mp hc))
    · exact ih fun c hc => hl c (List.mem_cons_of_mem a hc)

/-- Inserting a candidate that every present candidate precedes in the
catalog keeps the tie-stability invariant. -/
theorem orderedInsert_pairwise_tieStable (x : Candidate) (l : List Candidate)
    (hl : ∀ c ∈ l, catLt x c)
    (h : l.Pairwise tieStable) :
    (List.orderedInsert candBefore x l).Pairwise tieStable := by
  induction l with
  | nil => simp
  | cons b t ih =>
    rw [List.orderedInsert]
    by_cases hc : candBefore x b
    · rw [if_pos hc]
      constructor
      · intro z hz _
        exact hl z hz
      · exact h
    · rw [if_neg hc]
      have hlt : PyFloat.lt b.distance_from_float x.distance_from_float = true := by
        cases hbb : PyFloat.lt b.distance_from_float x.distance_from_float with
        | false => exact absurd hbb hc
        | true => rfl
      constructor
      · intro z hz
        rcases (List.mem_orderedInsert candBefore).mp hz with rfl | hz
        · intro hk
          exact absurd hk (PyFloat.ne_of_lt hlt)
        · exact (List.pairwise_cons.mp h).1 z hz
      · exact ih (fun c hc' => hl c (List.mem_cons_of_mem b hc')) h.of_cons

/-- Stability: sorting a catalog-ordered candidate list keeps catalog order
between equal reported distances. -/
theorem insertionSort_pairwise_tieStable (l : List Candidate) (h : l.Pairwise catLt) :
    (List.insertionSort candBefore l).Pairwise tieStable := by
  induction l with
  | nil => simp
  | cons a t ih =>
    rw [List.insertionSort]
    apply orderedInsert_pairwise_tieStable
    · intro c hc
      exact (List.pairwise_cons.mp h).1 c ((List.mem_insertionSort (r := candBefore)).mp hc)
    · exact ih h.of_cons

/-- The candidate list is built in catalog order. -/
theorem candidates_catLt (dist : DistFn) (la lo : PyFloat) :
    (GLOBAL_OCEAN_PORTS.map (mkCandidate dist la lo)).Pairwise catLt := by
  rw [List.pairwise_map]
  have hbase : GLOBAL_OCEAN_PORTS.Pairwise fun p q => catIdx p.name < catIdx q.name := by
    decide
  exact hbase

/-- When the distance oracle is finite on the catalog, every candidate's
reported (rounded) distance is finite. -/
theorem candidates_fin (dist : DistFn) (la lo : PyFloat)
    (hfin : ∀ p ∈ GLOBAL_OCEAN_PORTS, (dist la lo p.lat p.lon).isFin = true) :
    ∀ c ∈ GLOBAL_OCEAN_PORTS.map (mkCandidate dist la lo),
      c.distance_from_float.isFin = true := by
  intro c hc
  obtain ⟨p, hp, rfl⟩ := List.mem_map.mp hc
  obtain ⟨q, hq⟩ := PyFloat.isFin_iff.mp (hfin p hp)
  show ((dist la lo p.lat p.lon).round2).isFin = true
  rw [hq]
  rfl

/-- In a distance-sorted list the head's reported distance is minimal. -/
theorem pairwise_head_min {l : List Candidate} (h : l.Pairwise qle) {h0 : Candidate}
    (hh : l.head? = some h0) : ∀ c ∈ l, qle h0 c := by
  cases l with
  | nil => cases hh
  | cons a t =>
    obtain rfl := Option.some.inj hh
    intro c hc
    rcases List.mem_cons.mp hc with rfl | hc
    · exact le_refl _
    · exact (List.pairwise_cons.mp h).1 c hc

/-- C5 (confirmed): for finite coordinates and a distance oracle that is
finite on the catalog, `find_nearest_ports(lat, lon, 4)` is sorted ascending
by the candidates' reported distances — in particular the first element's
distance is less than or equal to every other element's — and candidates with
equal reported distances appear in catalog order (the sort is stable). -/
theorem find_nearest_ports_sorted_stable (dist : DistFn) (la lo : ℚ)
    (hfin : ∀ p ∈ GLOBAL_OCEAN_PORTS,
      (dist (.fin la) (.fin lo) p.lat p.lon).isFin = true) :
    (find_nearest_ports dist (.float (.fin la)) (.float (.fin lo)) 4).Pairwise qle ∧
    (find_nearest_ports dist (.float (.fin la)) (.float (.fin lo)) 4).Pairwise tieStable ∧
    ∀ h0 c, (find_nearest_ports dist (.float (.fin la)) (.float (.fin lo)) 4).head? = some h0 →
      c ∈ find_nearest_ports dist (.float (.fin la)) (.float (.fin lo)) 4 →
      h0.distance_from_float.q ≤ c.distance_from_float.q := by
  have hqle :=
    insertionSort_pairwise_qle _ (candidates_fin dist (.fin la) (.fin lo) hfin)
  have hstab :=
    insertionSort_pairwise_tieStable _ (candidates_catLt dist (.fin la) (.fin lo))
  have hres : find_nearest_ports dist (.float (.fin la)) (.float (.fin lo)) 4 =
      (List.insertionSort candBefore
        (GLOBAL_OCEAN_PORTS.map (mkCandidate dist (.fin la) (.fin lo)))).take 4 := rfl
  rw [hres]
  refine ⟨hqle.sublist (List.take_sublist 4 _), hstab.sublist (List.take_sublist 4 _), ?_⟩
  intro h0 c hh hc
  exact pairwise_head_min (hqle.sublist (List.take_sublist 4 _)) hh c hc

/-- A constant distance oracle: every port one kilometre away. -/
def distOne : DistFn := fun _ _ _ _ => .fin 1

/-- C5 witness: `find_nearest_ports_sorted_stable` at the constant oracle and
the origin. -/
theorem find_nearest_ports_sorted_stable_witness :
    (∀ p ∈ GLOBAL_OCEAN_PORTS, (distOne (.fin 0) (.fin 0) p.lat p.lon).isFin = true) ∧
    ((find_nearest_ports distOne (.float (.fin 0)) (.float (.fin 0)) 4).Pairwise qle ∧
     (find_nearest_ports distOne (.float (.fin 0)) (.float (.fin 0)) 4).Pairwise tieStable ∧
     ∀ h0 c,
       (find_nearest_ports distOne (.float (.fin 0)) (.float (.fin 0)) 4).head? = some h0 →
       c ∈ find_nearest_ports distOne (.float (.fin 0)) (.float (.fin 0)) 4 →
       h0.distance_from_float.q ≤ c.distance_from_float.q) :=
  ⟨by decide, find_nearest_ports_sorted_stable distOne 0 0 (by decide)⟩

/-! ### C1: the coordinate guard is a type test; non-finite coordinates
make the library raise

The guard rejects only non-numeric types.  A numeric but non-finite
coordinate (nan, an infinity) passes it, and the first call
`geopy.distance.distance(float_coords, port_coords)` then raises
`ValueError` — geopy validates that `Point` coordinates are finite — which
propagates uncaught out of `find_nearest_ports`.  `PyResult` models a call
that either returns or raises, and `find_nearest_ports_run` is the function
with this exception path. -/

/-- The always-sorted list of all fifteen candidates is never empty. -/
theorem sorted_candidates_take_ne_nil (dist : DistFn) (la lo : PyFloat) (n : Nat)
    (h : 0 < n) :
    (List.insertionSort candBefore (GLOBAL_OCEAN_PORTS.map (mkCandidate dist la lo))).take n ≠
      [] := by
  intro he
  rcases List.take_eq_nil_iff.mp he with h0 | h0
  · omega
  · have hlen := congrArg List.length h0
    rw [List.length_insertionSort, List.length_map] at hlen
    exact absurd hlen (by decide)

/-- The catalog's `Singapore` entry. -/
def singaporePort : Port := { name := "Singapore", lat := 1.290270, lon := 103.851959 }

/-- A `find?` misses exactly when the predicate fails everywhere. -/
theorem find?_isNone_eq_all {α : Type} (p : α → Bool) (l : List α) :
    (l.find? p).isNone = l.all fun a => !(p a) := by
  induction l with
  | nil => rfl
  | cons a t ih =>
    rw [List.find?_cons]
    cases hp : p a with
    | true => simp [hp]
    | false => simp [hp, ih]

/-- C2 (corrected, theorem for the amended claim): destination lookup is
case-insensitive and requires the query to be a substring of a catalog name:
`"singapore"` and `"SINGAPORE"` resolve to the `"Singapore"` entry, while
`"Singapore, "` (trailing content) resolves to nothing; in general the lookup
fails exactly when no catalog entry's lowered name contains the lowered
query. -/
theorem dest_lookup_characterization :
    find_dest_port "singapore" = some singaporePort ∧
    find_dest_port "SINGAPORE" = some singaporePort ∧
    find_dest_port "Singapore, " = none ∧
    ∀ s : String, (find_dest_port s).isNone =
      GLOBAL_OCEAN_PORTS.all fun p => !(strContains (lowerStr p.name) (lowerStr s)) :=
  ⟨rfl, rfl, by decide, fun s => find?_isNone_eq_all _ _⟩

/-- C2 (counterexample): the catalog holds exactly one entry named
`"Singapore"`, yet the destination string `"Singapore, "` fails to resolve —
it does not resolve to the same entry as `"singapore"`. -/
theorem dest_lookup_trailing_counterexample :
    (GLOBAL_OCEAN_PORTS.filter fun p => p.name == "Singapore").length = 1 ∧
    find_dest_port "Singapore, " = none ∧
    find_dest_port "Singapore, " ≠ find_dest_port "singapore" := by
  refine ⟨by decide, by decide, ?_⟩
  intro he
  rw [show find_dest_port "singapore" = some singaporePort from rfl] at he
  rw [show find_dest_port "Singapore, " = none from by decide] at he
  exact Option.noConfusion he

/-! ### C7: one primary, ranked by proximity to the float -/

/-- The route-details loop keeps the candidates' names and order. -/
theorem buildRouteDetailsFrom_map_name (dist : DistFn) (dest : Port) :
    ∀ (i : Nat) (l : List Candidate),
      (buildRouteDetailsFrom dist dest i l).map RouteDetail.name = l.map Candidate.name := by
  intro i l
  induction l generalizing i with
  | nil => rfl
  | cons c rest ih => simp [buildRouteDetailsFrom, mkRouteDetail, ih]

/-- Entries produced after the first carry `is_primary = false`:
their count of primaries is zero. -/
theorem buildRouteDetailsFrom_tail_no_primary (dist : DistFn) (dest : Port) :
    ∀ (l : List Candidate) (i : Nat),
      (buildRouteDetailsFrom dist dest (i + 1) l).countP (fun d => d.is_primary) = 0 := by
  intro l
  induction l with
  | nil => intro i; rfl
  | cons c rest ih =>
    intro i
    have hflag : ((i + 1 : Nat) == 0) = false := by
      simp
    rw [buildRouteDetailsFrom, List.countP_cons, ih (i + 1)]
    simp [mkRouteDetail, hflag]

/-- Every produced entry is the detail of some candidate of the input. -/
theorem mem_buildRouteDetailsFrom (dist : DistFn) (dest : Port) :
    ∀ (i : Nat) (l : List Candidate) (d : RouteDetail),
      d ∈ buildRouteDetailsFrom dist dest i l →
      ∃ b ∈ l, ∃ f : Bool, d = mkRouteDetail dist dest b f := by
  intro i l
  induction l generalizing i with
  | nil => intro d hd; cases hd
  | cons c rest ih =>
    intro d hd
    rcases List.mem_cons.mp hd with rfl | hd
    · exact ⟨c, List.mem_cons_self c rest, (i == 0), rfl⟩
    · obtain ⟨b, hb, f, rfl⟩ := ih (i + 1) d hd
      exact ⟨b, List.mem_cons_of_mem c hb, f, rfl⟩

/-- The loop transports pairwise relations from candidates to details. -/
theorem buildRouteDetailsFrom_pairwise (dist : DistFn) (dest : Port)
    {R : Candidate → Candidate → Prop} {S : RouteDetail → RouteDetail → Prop}
    (hRS : ∀ (a b : Candidate) (fa fb : Bool),
      R a b → S (mkRouteDetail dist dest a fa) (mkRouteDetail dist dest b fb)) :
    ∀ (i : Nat) (l : List Candidate), l.Pairwise R →
      (buildRouteDetailsFrom dist dest i l).Pairwise S := by
  intro i l
  induction l generalizing i with
  | nil => intro _; exact List.Pairwise.nil
  | cons c rest ih =>
    intro h
    rw [buildRouteDetailsFrom]
    constructor
    · intro d hd
      obtain ⟨b, hb, f, rfl⟩ := mem_buildRouteDetailsFrom dist dest (i + 1) rest d hd
      exact hRS c b (i == 0) f ((List.pairwise_cons.mp h).1 b hb)
    · exact ih (i + 1) h.of_cons

/-- C7 (confirmed): for finite coordinates and a distance oracle finite on
the catalog, the assembled route list is non-empty, has exactly one entry
with `is_primary = true`, that entry is first, the list is ordered by the
distance from the float (proximity ranking, not total-distance ranking), and
it lists the candidates in exactly the nearest-port order. -/
theorem route_details_primary_first_by_proximity (dist : DistFn) (la lo : ℚ) (dest : Port)
    (hfin : ∀ p ∈ GLOBAL_OCEAN_PORTS,
      (dist (.fin la) (.fin lo) p.lat p.lon).isFin = true) :
    route_details dist dest
        (find_nearest_ports dist (.float (.fin la)) (.float (.fin lo)) 4) ≠ [] ∧
    (route_details dist dest
        (find_nearest_ports dist (.float (.fin la)) (.float (.fin lo)) 4)).countP
      (fun d => d.is_primary) = 1 ∧
    (route_details dist dest
        (find_nearest_ports dist (.float (.fin la)) (.float (.fin lo)) 4)).head?.map
      RouteDetail.is_primary = some true ∧
    (route_details dist dest
        (find_nearest_ports dist (.float (.fin la)) (.float (.fin lo)) 4)).Pairwise
      (fun a b => a.distance_to_port.q ≤ b.distance_to_port.q) ∧
    (route_details dist dest
        (find_nearest_ports dist (.float (.fin la)) (.float (.fin lo)) 4)).map
      RouteDetail.name =
      (find_nearest_ports dist (.float (.fin la)) (.float (.fin lo)) 4).map
        Candidate.name := by
  have hqle :=
    (insertionSort_pairwise_qle _
      (candidates_fin dist (.fin la) (.fin lo) hfin)).sublist (List.take_sublist 4 _)
  have hne : find_nearest_ports dist (.float (.fin la)) (.float (.fin lo)) 4 ≠ [] :=
    sorted_candidates_take_ne_nil dist (.fin la) (.fin lo) 4 (by decide)
  have hpair : (route_details dist dest
      (find_nearest_ports dist (.float (.fin la)) (.float (.fin lo)) 4)).Pairwise
      (fun a b => a.distance_to_port.q ≤ b.distance_to_port.q) := by
    apply buildRouteDetailsFrom_pairwise dist dest (R := qle) _ 0 _ hqle
    intro a b fa fb hab
    exact hab
  refine ⟨?_, ?_, ?_, hpair, buildRouteDetailsFrom_map_name dist dest 0 _⟩
  · cases hl : find_nearest_ports dist (.float (.fin la)) (.float (.fin lo)) 4 with
    | nil => exact absurd hl hne
    | cons c rest =>
      rw [route_details, buildRouteDetailsFrom]
      exact List.cons_ne_nil _ _
  · cases hl : find_nearest_ports dist (.float (.fin la)) (.float (.fin lo)) 4 with
    | nil => exact absurd hl hne
    | cons c rest =>
      rw [route_details, buildRouteDetailsFrom, List.countP_cons,
        buildRouteDetailsFrom_tail_no_primary dist dest rest 0]
      simp [mkRouteDetail]
  · cases hl : find_nearest_ports dist (.float (.fin la)) (.float (.fin lo)) 4 with
    | nil => exact absurd hl hne
    | cons c rest =>
      rw [route_details, buildRouteDetailsFrom]
      rfl

/-- C7 witness: `route_details_primary_first_by_proximity` at the constant
oracle, the origin and the Singapore destination. -/
theorem route_details_primary_first_by_proximity_witness :
    (∀ p ∈ GLOBAL_OCEAN_PORTS, (distOne (.fin 0) (.fin 0) p.lat p.lon).isFin = true) ∧
    (route_details distOne singaporePort
        (find_nearest_ports distOne (.float (.fin 0)) (.float (.fin 0)) 4) ≠ [] ∧
     (route_details distOne singaporePort
        (find_nearest_ports distOne (.float (.fin 0)) (.float (.fin 0)) 4)).countP
       (fun d => d.is_primary) = 1 ∧
     (route_details distOne singaporePort
        (find_nearest_ports distOne (.float (.fin 0)) (.float (.fin 0)) 4)).head?.map
       RouteDetail.is_primary = some true ∧
     (route_details distOne singaporePort
        (find_nearest_ports distOne (.float (.fin 0)) (.float (.fin 0)) 4)).Pairwise
       (fun a b => a.distance_to_port.q ≤ b.distance_to_port.q) ∧
     (route_details distOne singaporePort
        (find_nearest_ports distOne (.float (.fin 0)) (.float (.fin 0)) 4)).map
       RouteDetail.name =
       (find_nearest_ports distOne (.float (.fin 0)) (.float (.fin 0)) 4).map
         Candidate.name) :=
  ⟨by decide, route_details_primary_first_by_proximity distOne 0 0 singaporePort (by decide)⟩

/-! ### C6: how the primary total distance is computed -/

end FloatChat
